import Mathlib

/-!
# Verification of the `coffea-to-cabinetry` exploratory notebook

A shallow embedding of the two code cells of `coffea-to-cabinetry.ipynb`
(the `MyProcessor` class and the `build_single_histogram` function) together
with the "Simple example" cells (the `samples` / `template_info` /
`channel_info` dictionaries, the `run_uproot_job` invocation and the result
reading loop).

Modelling conventions:
* Python numbers (ints and numpy floats) are modelled as rationals `ℚ`.
* Python dictionaries with string keys are association lists
  `List (String × α)` with Python's `dict.update` / `d[k]` semantics
  (`dictUpdate` / `dictGet`); `d[k]` on a missing key is a `KeyError`.
* Exceptions are modelled with `Except PyError`; `PyError` distinguishes the
  deliberately raised `ValueError` of the `MyProcessor` constructor from the
  implicit runtime errors (`TypeError` from `eval(None, ...)`, `KeyError`
  from a failed dict lookup).
* An event is a mapping from field names to values; the external
  `eval(expr, {}, events)` machinery of Python/awkward is abstracted by a
  `PyEval` record giving boolean (mask) and numeric semantics per event.
* The external `numpy.sqrt` routine is an abstract parameter `sqrt : ℚ → ℚ`.
* `coffea.processor.run_uproot_job` is an external library call; it is
  modelled operationally (`runJob`): the fileset is turned into a list of
  chunks (the external file contents are a parameter `source`), the
  `iterative_executor` processes the chunks strictly sequentially and the
  per-chunk outputs are merged with the accumulator addition.
* Observable side effects (job submission, file reads, printing) are
  recorded in explicit `Effect` lists.
-/

set_option autoImplicit false

namespace CoffeaToCabinetry

/-- A Python event record: field name to numeric value, as exposed by the
`BaseSchema`-interpreted events array. -/
def Event : Type := String → ℚ

/-- Abstract semantics of Python `eval(expr, {}, events)` over a single
event: `bool` interprets an expression as a per-event boolean mask entry
(used for `selection_filter`), `num` as a per-event number (used for
`variable` and `weight`). -/
structure PyEval where
  bool : String → Event → Bool
  num : String → Event → ℚ

/-- Python exception kinds observable in the notebook: the deliberately
raised `ValueError` of the `MyProcessor` constructor, the `TypeError`
raised by `eval` on a `None` expression, and `KeyError` from dictionary
indexing. -/
inductive PyError where
  | valueError
  | typeError
  | keyError
  deriving DecidableEq, Repr

/-- A chunk of events handed to `MyProcessor.process`: the events carry
their dataset name in `events.metadata["dataset"]`. -/
structure Chunk where
  dataset : String
  events : List Event

/-- One entry of the `channel_info` list: keys `"name"`, `"variable"`,
`"observable_label"`, `"binning"`. -/
structure Channel where
  name : String
  «variable» : String
  observable_label : String
  binning : List ℚ
  deriving DecidableEq, Repr

/-- One entry of a `template_info` value list: keys `"name"`, `"weight"`,
`"selection_filter"` (the latter two may be `None`). -/
structure Template where
  name : String
  weight : Option String
  selection_filter : Option String
  deriving DecidableEq, Repr

/-- The `template_info` dictionary: dataset name to list of templates. -/
abbrev TemplateInfo : Type := List (String × List Template)

/-- Python dict lookup `d[k]` (first binding wins; `none` models `KeyError`). -/
def dictGet {α : Type} : List (String × α) → String → Option α
  | [], _ => none
  | kv :: rest, k => if kv.1 = k then some kv.2 else dictGet rest k

/-- Python `dict.update` with a single binding: replace the value if the key
is present, append the binding otherwise. -/
def dictUpdate {α : Type} : List (String × α) → String → α → List (String × α)
  | [], k, v => [(k, v)]
  | kv :: rest, k, v =>
      if kv.1 = k then (k, v) :: rest else kv :: dictUpdate rest k v

/-- One `fill` record of a histogram: the categorical coordinates
(`dataset`, `template`), the fill weight and the observable value. -/
structure FillEntry where
  dataset : String
  template : String
  weight : ℚ
  observable : ℚ
  deriving DecidableEq, Repr

/-- A `coffea.hist.Hist` with a dataset axis, a template axis and one
binned axis, modelled as its binning plus the list of fill records. -/
structure Hist where
  «variable» : String
  observable_label : String
  binning : List ℚ
  entries : List FillEntry
  deriving DecidableEq, Repr

/-- `Hist.fill`: record new fill entries. -/
def Hist.fill (h : Hist) (es : List FillEntry) : Hist :=
  { h with entries := h.entries ++ es }

/-- Index of the half-open bin `[edges[i], edges[i+1])` containing `x`
(`none` for underflow/overflow, which `values()` does not report). -/
def binIndex : List ℚ → ℚ → Option ℕ
  | lo :: hi :: rest, x =>
      if lo ≤ x ∧ x < hi then some 0
      else (binIndex (hi :: rest) x).map (fun i => i + 1)
  | _, _ => none

/-- The per-bin sum of `f` over the entries of `h` at categorical key
`key = (dataset, template)`. -/
def Hist.perBin (h : Hist) (key : String × String) (f : FillEntry → ℚ) :
    List ℚ :=
  let sel := h.entries.filter
    (fun e => e.dataset = key.1 ∧ e.template = key.2)
  (List.range (h.binning.length - 1)).map
    (fun i =>
      ((sel.filter (fun e => binIndex h.binning e.observable = some i)).map
        f).sum)

/-- `h.values(sumw2=True)[key]`: the pair of the per-bin sum of weights
(yields) and the per-bin sum of squared weights (variances). -/
def Hist.values (h : Hist) (key : String × String) : List ℚ × List ℚ :=
  (h.perBin key (fun e => e.weight), h.perBin key (fun e => e.weight ^ 2))

/-- `accumulator.identity()` for a `dict_accumulator` of histograms: the
same keys, each histogram emptied. -/
def accIdentity (acc : List (String × Hist)) : List (String × Hist) :=
  acc.map (fun kv => (kv.1, { kv.2 with entries := [] }))

/-- `dict_accumulator` addition: merge the fill entries key-wise. -/
def accAdd (a b : List (String × Hist)) : List (String × Hist) :=
  a.map (fun kv =>
    match dictGet b kv.1 with
    | some h2 => (kv.1, kv.2.fill h2.entries)
    | none => kv)

/-- The `MyProcessor` instance after a successful construction: the
accumulator built from `channel_info` plus the two stored instruction
dictionaries. -/
structure MyProcessor where
  accumulator : List (String × Hist)
  channel_info : List Channel
  template_info : TemplateInfo

/-- The accumulator set up by the constructor: one empty histogram per
channel, added with `dict.update` in channel order. -/
def buildAccumulator (channel_info : List Channel) : List (String × Hist) :=
  channel_info.foldl
    (fun acc ch =>
      dictUpdate acc ch.name
        ⟨ch.«variable», ch.observable_label, ch.binning, []⟩)
    []

/-- `MyProcessor.__init__`: raises `ValueError` when `channel_info` or
`template_info` is `None`, otherwise sets up the accumulator and stores
the instruction dictionaries. -/
def MyProcessor.init (channel_info : Option (List Channel))
    (template_info : Option TemplateInfo) : Except PyError MyProcessor :=
  match channel_info, template_info with
  | some chs, some ti =>
      .ok { accumulator := buildAccumulator chs
            channel_info := chs
            template_info := ti }
  | _, _ => .error .valueError

/-- The body of the template loop up to the `fill` arguments: apply the
selection filter (`eval` of `None` raises `TypeError`), evaluate the
observable, evaluate the weight or default to `np.ones`, and zip weights
with observables into fill entries. -/
def templateContrib (ev : PyEval) (dataset : String) («variable» : String)
    (t : Template) (events : List Event) : Except PyError (List FillEntry) :=
  match t.selection_filter with
  | none => .error .typeError
  | some filt =>
      let events_cut := events.filter (ev.bool filt)
      let observables := events_cut.map (ev.num «variable»)
      let weights :=
        match t.weight with
        | some w => events_cut.map (ev.num w)
        | none => List.replicate observables.length 1
      .ok ((weights.zip observables).map
        (fun p => ⟨dataset, t.name, p.1, p.2⟩))

/-- The template loop of `MyProcessor.process` for one channel: each
iteration computes the fill entries of one template and fills
`out[channel_name]` (a missing key is a `KeyError`). -/
def processTemplates (ev : PyEval) (dataset : String) (ch : Channel)
    (events : List Event) :
    List Template → List (String × Hist) →
    Except PyError (List (String × Hist))
  | [], out => .ok out
  | t :: ts, out => do
      let es ← templateContrib ev dataset ch.«variable» t events
      match dictGet out ch.name with
      | none => .error .keyError
      | some h =>
          processTemplates ev dataset ch events ts
            (dictUpdate out ch.name (h.fill es))

/-- The channel loop of `MyProcessor.process`: for each channel, look up
the dataset's templates (`self.template_info[dataset]`, a missing dataset
is a `KeyError`) and run the template loop. -/
def processChannels (ev : PyEval) (ti : TemplateInfo) (dataset : String)
    (events : List Event) :
    List Channel → List (String × Hist) →
    Except PyError (List (String × Hist))
  | [], out => .ok out
  | ch :: chs, out =>
      match dictGet ti dataset with
      | none => .error .keyError
      | some ts => do
          let out1 ← processTemplates ev dataset ch events ts out
          processChannels ev ti dataset events chs out1

/-- `MyProcessor.process`: start from `self.accumulator.identity()`, read
the dataset from the chunk metadata and run the channel loop. -/
def MyProcessor.process (p : MyProcessor) (ev : PyEval) (chunk : Chunk) :
    Except PyError (List (String × Hist)) :=
  processChannels ev p.template_info chunk.dataset chunk.events
    p.channel_info (accIdentity p.accumulator)

/-- `MyProcessor.postprocess`: returns the accumulator unchanged. -/
def MyProcessor.postprocess (p : MyProcessor)
    (accumulator : List (String × Hist)) : List (String × Hist) :=
  accumulator

/-- A `pathlib.Path`; `str(p)` is `PyPath.str`. -/
structure PyPath where
  str : String
  deriving DecidableEq, Repr

/-- One value of the fileset (`samples`) dictionary: keys `"treename"` and
`"files"`. -/
structure SampleSpec where
  treename : String
  files : List String
  deriving DecidableEq, Repr

/-- The executor handed to `run_uproot_job`. The notebook only ever uses
`processor.iterative_executor`; `futures` stands for the parallel
alternative coffea offers. -/
inductive Executor where
  | iterative
  | futures
  deriving DecidableEq, Repr

/-- One invocation of `processor.run_uproot_job`, recorded as the argument
tuple: the fileset, the tree-name argument, the constructor arguments of
the `MyProcessor` instance, the executor and the executor arguments'
schema. -/
structure JobSubmission where
  samples : List (String × SampleSpec)
  treename : Option String
  proc_channel_info : Option (List Channel)
  proc_template_info : Option TemplateInfo
  executor : Executor
  schema : String
  deriving DecidableEq, Repr

/-- The chunks coffea derives from a fileset: the external file contents
are a parameter `source` giving the event chunks of each
(dataset name, sample spec) pair; the chunk metadata dataset is the
fileset key. -/
def chunksOf (source : String → SampleSpec → List (List Event))
    (samples : List (String × SampleSpec)) : List Chunk :=
  samples.flatMap (fun kv =>
    (source kv.1 kv.2).map (fun evs => ⟨kv.1, evs⟩))

/-- The `iterative_executor`: process the chunks strictly sequentially,
one after the other, adding each output into the running accumulator. -/
def runChunksIterative (ev : PyEval) (p : MyProcessor) :
    List Chunk → List (String × Hist) →
    Except PyError (List (String × Hist))
  | [], acc => .ok acc
  | c :: cs, acc => do
      let out ← p.process ev c
      runChunksIterative ev p cs (accAdd acc out)

/-- `processor.run_uproot_job` (external coffea API, modelled
operationally): construct the `MyProcessor` instance from the recorded
constructor arguments, derive the chunks from the fileset, run the
executor over them starting from the identity accumulator, and apply
`postprocess`. Only the `iterative_executor` is given semantics: the
notebook never uses any other. -/
def runJob (source : String → SampleSpec → List (List Event)) (ev : PyEval)
    (job : JobSubmission) : Except PyError (List (String × Hist)) :=
  match job.executor with
  | .futures => .error .typeError
  | .iterative => do
      let p ← MyProcessor.init job.proc_channel_info job.proc_template_info
      let acc ← runChunksIterative ev p (chunksOf source job.samples)
        (accIdentity p.accumulator)
      .ok (p.postprocess acc)

/-- The argument tuple `build_single_histogram` hands to its single
`processor.run_uproot_job` call: the `samples`, `template_info` and
`channel_info` dictionaries are built exactly as in the source. -/
def build_single_histogram_job (ntuple_paths : List PyPath)
    (pos_in_file : String) («variable» : String) (bins : List ℚ)
    (weight : Option String := none)
    (selection_filter : Option String := none) : JobSubmission :=
  let samples : List (String × SampleSpec) :=
    [("generic_name",
      { treename := pos_in_file
        files := ntuple_paths.map PyPath.str })]
  let template_info : TemplateInfo :=
    [("generic_name",
      [{ name := "generic_template_name"
         weight := weight
         selection_filter := selection_filter }])]
  let channel_info : List Channel :=
    [{ name := "generic_channel_name"
       «variable» := «variable»
       observable_label := "generic_label"
       binning := bins }]
  { samples := samples
    treename := none
    proc_channel_info := some channel_info
    proc_template_info := some template_info
    executor := .iterative
    schema := "BaseSchema" }

/-- `build_single_histogram`: build the configuration dictionaries, run
the single `run_uproot_job` call, extract
`result["generic_channel_name"].values(sumw2=True)[("generic_name",
"generic_template_name")]` and return `(yields, np.sqrt(variance))`.
`np.sqrt` is the abstract parameter `sqrt`. -/
def build_single_histogram (source : String → SampleSpec → List (List Event))
    (ev : PyEval) (sqrt : ℚ → ℚ) (ntuple_paths : List PyPath)
    (pos_in_file : String) («variable» : String) (bins : List ℚ)
    (weight : Option String := none)
    (selection_filter : Option String := none) :
    Except PyError (List ℚ × List ℚ) := do
  let job := build_single_histogram_job ntuple_paths pos_in_file «variable»
    bins weight selection_filter
  let result ← runJob source ev job
  match dictGet result "generic_channel_name" with
  | none => .error .keyError
  | some h =>
      let yv := h.values ("generic_name", "generic_template_name")
      .ok (yv.1, yv.2.map sqrt)

/-! ## Observable side effects

The notebook's operations touch the outside world only by submitting a
backend job (which reads the input files) and by printing; this is recorded
in explicit effect traces. -/

/-- An observable side effect. `writeFile` is the effect the notebook
never performs: writing to a file or data store. -/
inductive Effect where
  | submitJob (job : JobSubmission)
  | readFile (path : String)
  | writeFile (path : String)
  | printStr (s : String)
  | printVals (v : List ℚ)
  deriving DecidableEq, Repr

/-- The effects of one `run_uproot_job` call: the submission itself plus a
read of every file of the fileset. -/
def jobEffects (job : JobSubmission) : List Effect :=
  Effect.submitJob job ::
    job.samples.flatMap (fun kv => kv.2.files.map Effect.readFile)

/-- The effect trace of one `build_single_histogram` call: exactly its one
backend job (the body contains a single `run_uproot_job` call and no other
effectful statement). -/
def build_single_histogram_effects (ntuple_paths : List PyPath)
    (pos_in_file : String) («variable» : String) (bins : List ℚ)
    (weight : Option String := none)
    (selection_filter : Option String := none) : List Effect :=
  jobEffects (build_single_histogram_job ntuple_paths pos_in_file «variable»
    bins weight selection_filter)

/-! ## The "Simple example" cells -/

/-- The `samples` dictionary of the example cell. -/
def example_samples : List (String × SampleSpec) :=
  [("signal",
    { treename := "signal"
      files := ["../cabinetry/ntuples/prediction.root"] }),
   ("background",
    { treename := "background"
      files := ["../cabinetry/ntuples/prediction.root"] })]

/-- The `template_info` dictionary of the example cell. -/
def example_template_info : TemplateInfo :=
  [("signal",
    [{ name := "nominal"
       weight := some "weight"
       selection_filter := some "lep_charge == 1" }]),
   ("background",
    [{ name := "nominal"
       weight := some "weight"
       selection_filter := some "lep_charge == 1" },
     { name := "WeightBasedModeling"
       weight := some "weight_up"
       selection_filter := some "lep_charge == 1" }])]

/-- The `channel_info` list of the example cell. -/
def example_channel_info : List Channel :=
  [{ name := "Signal_region"
     «variable» := "jet_pt"
     observable_label := "jet $p_T$ [GeV]"
     binning := [200, 300, 400, 500, 600] }]

/-- The single `run_uproot_job` invocation of the example cell. -/
def example_job : JobSubmission :=
  { samples := example_samples
    treename := none
    proc_channel_info := some example_channel_info
    proc_template_info := some example_template_info
    executor := .iterative
    schema := "BaseSchema" }

/-- The `result` of the example cell's `run_uproot_job` invocation. -/
def example_result (source : String → SampleSpec → List (List Event))
    (ev : PyEval) : Except PyError (List (String × Hist)) :=
  runJob source ev example_job

/-- The effect trace of the example cell's `run_uproot_job` invocation. -/
def example_cell_effects : List Effect :=
  jobEffects example_job

/-- The number of template-histogram-building instructions carried by a
`template_info` dictionary: one instruction per (dataset, template) pair. -/
def countTemplates (ti : TemplateInfo) : ℕ :=
  (ti.map (fun kv => kv.2.length)).sum

/-- The result reading loop of the final example cell: print the channel,
dataset and template names and, per template, the yields and
`np.sqrt(variance)` extracted from the result with `values(sumw2=True)`.
The dictionary lookups that cannot fail on the example data are modelled
with an empty-histogram default. -/
def reading_loop_effects (channel_info : List Channel) (ti : TemplateInfo)
    (result : List (String × Hist)) (sqrt : ℚ → ℚ) : List Effect :=
  channel_info.flatMap (fun ch =>
    Effect.printStr ("channel " ++ ch.name) ::
      ti.flatMap (fun kv =>
        Effect.printStr ("  dataset: " ++ kv.1) ::
          kv.2.flatMap (fun tem =>
            let yv :=
              match dictGet result ch.name with
              | some h => h.values (kv.1, tem.name)
              | none => ([], [])
            [Effect.printStr ("    template: " ++ tem.name),
             Effect.printVals yv.1,
             Effect.printVals (yv.2.map sqrt)])))

/-- Whether an effect is a backend job submission. -/
def Effect.isSubmit : Effect → Bool
  | .submitJob _ => true
  | _ => false

/-- Whether an effect writes to a file or data store. -/
def Effect.isWrite : Effect → Bool
  | .writeFile _ => true
  | _ => false

/-- Whether an effect prints to stdout. -/
def Effect.isPrint : Effect → Bool
  | .printStr _ => true
  | .printVals _ => true
  | _ => false

/-- The result extraction at the end of `build_single_histogram`:
`result["generic_channel_name"].values(sumw2=True)[("generic_name",
"generic_template_name")]` and `(yields, np.sqrt(variance))`. -/
def extractGeneric (sqrt : ℚ → ℚ) (result : List (String × Hist)) :
    Except PyError (List ℚ × List ℚ) :=
  match dictGet result "generic_channel_name" with
  | none => .error .keyError
  | some h =>
      let yv := h.values ("generic_name", "generic_template_name")
      .ok (yv.1, yv.2.map sqrt)

/-! ## Dictionary lemmas -/

theorem bind_ok_eq {ε α β : Type} (a : α) (f : α → Except ε β) :
    (Except.ok a >>= f : Except ε β) = f a := rfl

theorem dictGet_dictUpdate_self {α : Type} (d : List (String × α)) (k : String)
    (v : α) : dictGet (dictUpdate d k v) k = some v := by
  induction d with
  | nil => simp [dictGet, dictUpdate]
  | cons kv rest ih =>
      by_cases hk : kv.1 = k
      · simp [dictUpdate, hk, dictGet]
      · simpa [dictUpdate, hk, dictGet] using ih

theorem dictGet_dictUpdate_ne {α : Type} (d : List (String × α))
    (k k' : String) (v : α) (hne : k' ≠ k) :
    dictGet (dictUpdate d k v) k' = dictGet d k' := by
  have hkk : ¬ k = k' := fun h => hne h.symm
  induction d with
  | nil => simp [dictGet, dictUpdate, hkk]
  | cons kv rest ih =>
      by_cases hk : kv.1 = k
      · subst hk
        simp [dictUpdate, dictGet, hkk]
      · by_cases hk' : kv.1 = k'
        · simp [dictUpdate, hk, dictGet, hk', hne]
        · simpa [dictUpdate, hk, dictGet, hk', hne] using ih

/-! ## Accumulator lemmas -/

/-- The empty histogram the constructor sets up for channel `ch`. -/
def emptyHist (ch : Channel) : Hist :=
  ⟨ch.«variable», ch.observable_label, ch.binning, []⟩

theorem buildAccumulator_go_unseen (chs : List Channel) :
    ∀ (acc : List (String × Hist)) (k : String),
    k ∉ chs.map Channel.name →
    dictGet
      (chs.foldl
        (fun a ch => dictUpdate a ch.name (emptyHist ch)) acc) k =
    dictGet acc k := by
  induction chs with
  | nil => exact fun _ _ _ => rfl
  | cons ch rest ih =>
      intro acc k hk
      simp only [List.map_cons, List.mem_cons] at hk
      push_neg at hk
      simp only [List.foldl_cons]
      rw [ih _ k hk.2, dictGet_dictUpdate_ne _ _ _ _ hk.1]

theorem buildAccumulator_go_mem (ch : Channel) (chs : List Channel) :
    ∀ (acc : List (String × Hist)), ch ∈ chs →
    (chs.map Channel.name).Nodup →
    dictGet
      (chs.foldl
        (fun a c => dictUpdate a c.name (emptyHist c)) acc) ch.name =
    some (emptyHist ch) := by
  induction chs with
  | nil => exact fun _ hmem _ => absurd hmem (List.not_mem_nil ch)
  | cons c rest ih =>
      intro acc hmem hnd
      simp only [List.map_cons, List.nodup_cons] at hnd
      rcases List.mem_cons.mp hmem with h | h
      · subst h
        simp only [List.foldl_cons]
        rw [buildAccumulator_go_unseen _ _ _ hnd.1,
          dictGet_dictUpdate_self]
      · exact ih _ h hnd.2

theorem buildAccumulator_mem (chs : List Channel) (ch : Channel)
    (hmem : ch ∈ chs) (hnd : (chs.map Channel.name).Nodup) :
    dictGet (buildAccumulator chs) ch.name = some (emptyHist ch) :=
  buildAccumulator_go_mem ch chs [] hmem hnd

theorem dictGet_accIdentity (acc : List (String × Hist)) (k : String) :
    dictGet (accIdentity acc) k =
      (dictGet acc k).map (fun h => { h with entries := [] }) := by
  induction acc with
  | nil => rfl
  | cons kv rest ih =>
      by_cases hk : kv.1 = k
      · simp [accIdentity, dictGet, hk]
      · simpa [accIdentity, dictGet, hk] using ih

theorem accIdentity_buildAccumulator_mem (chs : List Channel) (ch : Channel)
    (hmem : ch ∈ chs) (hnd : (chs.map Channel.name).Nodup) :
    dictGet (accIdentity (buildAccumulator chs)) ch.name =
      some (emptyHist ch) := by
  rw [dictGet_accIdentity, buildAccumulator_mem chs ch hmem hnd]
  rfl

/-! ## Histogram lemmas -/

theorem Hist.fill_nil (h : Hist) : h.fill [] = h := by
  simp [Hist.fill]

theorem Hist.fill_fill (h : Hist) (a b : List FillEntry) :
    (h.fill a).fill b = h.fill (a ++ b) := by
  simp [Hist.fill]

/-! ## Characterization of the template loop -/

/-- The fill entries one template contributes (the successful value of
`templateContrib`; `[]` on the error path, which the characterization
lemmas exclude by hypothesis). -/
def contribOf (ev : PyEval) (dataset : String) («variable» : String)
    (t : Template) (events : List Event) : List FillEntry :=
  match templateContrib ev dataset «variable» t events with
  | .ok es => es
  | .error _ => []

theorem templateContrib_eq_ok (ev : PyEval) (dataset : String)
    («variable» : String) (t : Template) (events : List Event)
    (hfilt : t.selection_filter.isSome) :
    templateContrib ev dataset «variable» t events =
      .ok (contribOf ev dataset «variable» t events) := by
  rcases t with ⟨n, w, f⟩
  cases f with
  | none => simp at hfilt
  | some filt => simp [templateContrib, contribOf]

theorem processTemplates_ok (ev : PyEval) (dataset : String) (ch : Channel)
    (events : List Event) (ts : List Template)
    (hfilt : ∀ t ∈ ts, t.selection_filter.isSome) :
    ∀ out h, dictGet out ch.name = some h →
    ∃ out1,
      processTemplates ev dataset ch events ts out = .ok out1 ∧
      dictGet out1 ch.name =
        some (h.fill
          (ts.flatMap (fun t => contribOf ev dataset ch.«variable» t events))) ∧
      ∀ k, k ≠ ch.name → dictGet out1 k = dictGet out k := by
  induction ts with
  | nil =>
      intro out h hget
      exact ⟨out, rfl, by simpa [Hist.fill_nil] using hget, fun _ _ => rfl⟩
  | cons t rest ih =>
      intro out h hget
      have hc := templateContrib_eq_ok ev dataset ch.«variable» t events
        (hfilt t (List.mem_cons_self t rest))
      obtain ⟨out1, hrun, hget1, hother⟩ :=
        ih (fun t' ht' => hfilt t' (List.mem_cons_of_mem t ht'))
          (dictUpdate out ch.name
            (h.fill (contribOf ev dataset ch.«variable» t events)))
          (h.fill (contribOf ev dataset ch.«variable» t events))
          (dictGet_dictUpdate_self _ _ _)
      refine ⟨out1, ?_, ?_, ?_⟩
      · simp only [processTemplates]
        rw [hc, bind_ok_eq, hget]
        exact hrun
      · rw [hget1, Hist.fill_fill]
        simp
      · intro k hk
        rw [hother k hk, dictGet_dictUpdate_ne _ _ _ _ hk]

/-! ## Characterization of the channel loop -/

theorem processChannels_ok (ev : PyEval) (ti : TemplateInfo)
    (dataset : String) (events : List Event) (ts : List Template)
    (hts : dictGet ti dataset = some ts)
    (hfilt : ∀ t ∈ ts, t.selection_filter.isSome) :
    ∀ chs out, (chs.map Channel.name).Nodup →
    (∀ ch ∈ chs, dictGet out ch.name = some (emptyHist ch)) →
    ∃ out1,
      processChannels ev ti dataset events chs out = .ok out1 ∧
      (∀ ch ∈ chs, dictGet out1 ch.name =
        some ((emptyHist ch).fill
          (ts.flatMap (fun t => contribOf ev dataset ch.«variable» t events)))) ∧
      ∀ k, k ∉ chs.map Channel.name → dictGet out1 k = dictGet out k := by
  intro chs
  induction chs with
  | nil => exact fun out _ _ => ⟨out, rfl, fun _ h => absurd h (by simp),
      fun _ _ => rfl⟩
  | cons ch rest ih =>
      intro out hnd hget
      simp only [List.map_cons, List.nodup_cons] at hnd
      obtain ⟨out1, hrun1, hget1, hother1⟩ :=
        processTemplates_ok ev dataset ch events ts hfilt out (emptyHist ch)
          (hget ch (List.mem_cons_self ch rest))
      obtain ⟨out2, hrun2, hget2, hother2⟩ :=
        ih out1 hnd.2 (fun ch' hch' => by
          rw [hother1 ch'.name (by
            intro heq
            exact hnd.1 (heq ▸ List.mem_map_of_mem Channel.name hch'))]
          exact hget ch' (List.mem_cons_of_mem ch hch'))
      refine ⟨out2, ?_, ?_, ?_⟩
      · simp only [processChannels]
        rw [hts]
        show (processTemplates ev dataset ch events ts out >>= fun o =>
          processChannels ev ti dataset events rest o) = Except.ok out2
        rw [hrun1, bind_ok_eq]
        exact hrun2
      · intro ch' hch'
        rcases List.mem_cons.mp hch' with h | h
        · subst h
          rw [hother2 ch'.name (fun hmem => hnd.1 hmem), hget1]
        · exact hget2 ch' h
      · intro k hk
        simp only [List.map_cons, List.mem_cons] at hk
        push_neg at hk
        rw [hother2 k hk.2, hother1 k hk.1]

/-- Full characterization of a successful `MyProcessor.process` call. -/
theorem process_ok (chs : List Channel) (ti : TemplateInfo) (p : MyProcessor)
    (hp : MyProcessor.init (some chs) (some ti) = .ok p) (ev : PyEval)
    (dataset : String) (events : List Event) (ts : List Template)
    (hts : dictGet ti dataset = some ts)
    (hfilt : ∀ t ∈ ts, t.selection_filter.isSome)
    (hnd : (chs.map Channel.name).Nodup) :
    ∃ out,
      p.process ev ⟨dataset, events⟩ = .ok out ∧
      ∀ ch ∈ chs, dictGet out ch.name =
        some ⟨ch.«variable», ch.observable_label, ch.binning,
          ts.flatMap (fun t => contribOf ev dataset ch.«variable» t events)⟩ := by
  have hpval : p = ⟨buildAccumulator chs, chs, ti⟩ := by
    simpa [MyProcessor.init] using hp.symm
  subst hpval
  obtain ⟨out, hrun, hget, -⟩ :=
    processChannels_ok ev ti dataset events ts hts hfilt chs
      (accIdentity (buildAccumulator chs)) hnd
      (fun ch hch => accIdentity_buildAccumulator_mem chs ch hch hnd)
  exact ⟨out, hrun, fun ch hch => by
    rw [hget ch hch]
    rfl⟩

/-! ## Error-path lemmas -/

theorem bind_err_eq {ε α β : Type} (e : ε) (f : α → Except ε β) :
    (Except.error e >>= f : Except ε β) = Except.error e := rfl

theorem templateContrib_none (ev : PyEval) (dataset : String)
    («variable» : String) (t : Template) (events : List Event)
    (hf : t.selection_filter = none) :
    templateContrib ev dataset «variable» t events = .error .typeError := by
  rcases t with ⟨n, w, f⟩
  cases hf
  rfl

theorem processTemplates_err (ev : PyEval) (dataset : String) (ch : Channel)
    (events : List Event) (ts : List Template)
    (hbad : ∃ t ∈ ts, t.selection_filter = none) :
    ∀ out, (dictGet out ch.name).isSome →
    processTemplates ev dataset ch events ts out = .error .typeError := by
  induction ts with
  | nil => exact absurd hbad (by simp)
  | cons t rest ih =>
      intro out hsome
      rcases hf : t.selection_filter with - | filt
      · simp only [processTemplates]
        rw [templateContrib_none ev dataset ch.«variable» t events hf,
          bind_err_eq]
      · obtain ⟨t', ht', hft'⟩ := hbad
        rcases List.mem_cons.mp ht' with h | h
        · subst h
          rw [hf] at hft'
          cases hft'
        · have hc := templateContrib_eq_ok ev dataset ch.«variable» t events
            (by rw [hf]; rfl)
          obtain ⟨h0, hh0⟩ := Option.isSome_iff_exists.mp hsome
          simp only [processTemplates]
          rw [hc, bind_ok_eq, hh0]
          exact ih ⟨t', h, hft'⟩ _
            (by rw [dictGet_dictUpdate_self]; rfl)

theorem process_err (chs : List Channel) (ti : TemplateInfo)
    (p : MyProcessor) (hp : MyProcessor.init (some chs) (some ti) = .ok p)
    (ev : PyEval) (dataset : String) (events : List Event) (ch : Channel)
    (rest : List Channel) (hchs : chs = ch :: rest) (ts : List Template)
    (hts : dictGet ti dataset = some ts)
    (hbad : ∃ t ∈ ts, t.selection_filter = none)
    (hnd : (chs.map Channel.name).Nodup) :
    p.process ev ⟨dataset, events⟩ = .error .typeError := by
  have hpval : p = ⟨buildAccumulator chs, chs, ti⟩ := by
    simpa [MyProcessor.init] using hp.symm
  subst hpval
  subst hchs
  have hmem : dictGet (accIdentity (buildAccumulator (ch :: rest))) ch.name =
      some (emptyHist ch) :=
    accIdentity_buildAccumulator_mem _ ch (List.mem_cons_self ch rest) hnd
  show processChannels ev ti dataset events (ch :: rest)
    (accIdentity (buildAccumulator (ch :: rest))) = .error .typeError
  simp only [processChannels]
  rw [hts]
  show (processTemplates ev dataset ch events ts
      (accIdentity (buildAccumulator (ch :: rest))) >>= fun o =>
    processChannels ev ti dataset events rest o) = .error .typeError
  rw [processTemplates_err ev dataset ch events ts hbad _
    (by rw [hmem]; rfl), bind_err_eq]

/-! ## No `ValueError` outside of the constructor -/

theorem templateContrib_ne_valueError (ev : PyEval) (dataset : String)
    («variable» : String) (t : Template) (events : List Event) :
    templateContrib ev dataset «variable» t events ≠ .error .valueError := by
  rcases t with ⟨n, w, f⟩
  cases f with
  | none => simp [templateContrib]
  | some filt => simp [templateContrib]

theorem processTemplates_ne_valueError (ev : PyEval) (dataset : String)
    (ch : Channel) (events : List Event) (ts : List Template) :
    ∀ out, processTemplates ev dataset ch events ts out ≠
      .error .valueError := by
  induction ts with
  | nil => intro out h; cases h
  | cons t rest ih =>
      intro out
      rcases t with ⟨n, w, f⟩
      cases f with
      | none =>
          simp only [processTemplates]
          rw [templateContrib_none ev dataset ch.«variable» ⟨n, w, none⟩
            events rfl, bind_err_eq]
          intro h
          cases h
      | some filt =>
          simp only [processTemplates]
          rw [templateContrib_eq_ok ev dataset ch.«variable» ⟨n, w, some filt⟩
            events rfl, bind_ok_eq]
          rcases hget : dictGet out ch.name with - | h0
          · intro h; cases h
          · exact ih _

theorem processChannels_ne_valueError (ev : PyEval) (ti : TemplateInfo)
    (dataset : String) (events : List Event) (chs : List Channel) :
    ∀ out, processChannels ev ti dataset events chs out ≠
      .error .valueError := by
  induction chs with
  | nil => intro out h; cases h
  | cons ch rest ih =>
      intro out
      simp only [processChannels]
      rcases hts : dictGet ti dataset with - | ts
      · intro h; cases h
      · show (processTemplates ev dataset ch events ts out >>= fun o =>
          processChannels ev ti dataset events rest o) ≠ .error .valueError
        rcases hpt : processTemplates ev dataset ch events ts out with e | out1
        · rw [bind_err_eq]
          intro h
          injection h with h
          rw [h] at hpt
          exact processTemplates_ne_valueError ev dataset ch events ts out hpt
        · rw [bind_ok_eq]
          exact ih _

theorem process_ne_valueError (p : MyProcessor) (ev : PyEval) (c : Chunk) :
    p.process ev c ≠ .error .valueError :=
  processChannels_ne_valueError ev p.template_info c.dataset c.events
    p.channel_info _

theorem runChunksIterative_ne_valueError (ev : PyEval) (p : MyProcessor)
    (cs : List Chunk) :
    ∀ acc, runChunksIterative ev p cs acc ≠ .error .valueError := by
  induction cs with
  | nil => intro acc h; cases h
  | cons c rest ih =>
      intro acc
      simp only [runChunksIterative]
      rcases hpr : p.process ev c with e | out
      · rw [bind_err_eq]
        intro h
        injection h with h
        rw [h] at hpr
        exact process_ne_valueError p ev c hpr
      · rw [bind_ok_eq]
        exact ih _

theorem runJob_ne_valueError (source : String → SampleSpec → List (List Event))
    (ev : PyEval) (job : JobSubmission) (ci : List Channel)
    (ti : TemplateInfo) (hci : job.proc_channel_info = some ci)
    (hti : job.proc_template_info = some ti) :
    runJob source ev job ≠ .error .valueError := by
  rcases job with ⟨samples, tn, pci, pti, ex, sch⟩
  cases hci
  cases hti
  cases ex with
  | futures => intro h; cases h
  | iterative =>
      show (MyProcessor.init (some ci) (some ti) >>= fun p =>
        (runChunksIterative ev p (chunksOf source samples)
          (accIdentity p.accumulator) >>= fun acc =>
            .ok (p.postprocess acc))) ≠ .error .valueError
      rw [show MyProcessor.init (some ci) (some ti) =
        .ok ⟨buildAccumulator ci, ci, ti⟩ from rfl, bind_ok_eq]
      rcases hrc : runChunksIterative ev ⟨buildAccumulator ci, ci, ti⟩
        (chunksOf source samples)
        (accIdentity (buildAccumulator ci)) with e | acc
      · rw [bind_err_eq]
        intro h
        injection h with h
        rw [h] at hrc
        exact runChunksIterative_ne_valueError ev _ _ _ hrc
      · rw [bind_ok_eq]
        intro h
        cases h

/-! ## Claim C1 -/

/-- Claim C1, counterexample: the claim's final conjunct ("no batching or
grouping of multiple histogram-building instructions into one job is
performed anywhere in the program") fails on the "Simple example" cell,
which submits a single `run_uproot_job` call whose `template_info` carries
three template-histogram-building instructions (the nominal `signal` and
`background` templates and the `WeightBasedModeling` variation). -/
theorem example_cell_groups_three_templates :
    Effect.submitJob example_job ∈ example_cell_effects ∧
    example_job.proc_template_info.map countTemplates = some 3 ∧
    1 < 3 := by
  refine ⟨?_, rfl, by norm_num⟩
  simp [example_cell_effects, jobEffects]

/-- Claim C1 (amended): every call to `build_single_histogram` builds
exactly one template histogram — its `template_info` has the single sample
key `"generic_name"` with a one-entry template list, its `channel_info`
has exactly one channel, and the call submits exactly one backend job;
`build_single_histogram` itself performs no batching (the grouping of
multiple templates into one job happens only in the example cell). -/
theorem build_single_histogram_builds_one_template
    (ntuple_paths : List PyPath) (pos_in_file «variable» : String)
    (bins : List ℚ) (weight selection_filter : Option String) :
    (build_single_histogram_job ntuple_paths pos_in_file «variable» bins
        weight selection_filter).proc_template_info =
      some [("generic_name",
        [{ name := "generic_template_name", weight := weight,
           selection_filter := selection_filter }])] ∧
    (build_single_histogram_job ntuple_paths pos_in_file «variable» bins
        weight selection_filter).proc_template_info.map countTemplates =
      some 1 ∧
    (build_single_histogram_job ntuple_paths pos_in_file «variable» bins
        weight selection_filter).proc_channel_info.map List.length =
      some 1 ∧
    (build_single_histogram_effects ntuple_paths pos_in_file «variable» bins
        weight selection_filter).filter Effect.isSubmit =
      [Effect.submitJob (build_single_histogram_job ntuple_paths pos_in_file
        «variable» bins weight selection_filter)] := by
  refine ⟨rfl, rfl, rfl, ?_⟩
  simp only [build_single_histogram_effects, jobEffects,
    build_single_histogram_job, List.flatMap_cons, List.flatMap_nil,
    List.append_nil, List.filter_cons]
  norm_num [Effect.isSubmit, List.filter_map, Function.comp_def,
    List.filter_eq_nil_iff]

/-! ## Claim C4 -/

/-- Claim C4: `build_single_histogram` translates its arguments into the
configuration dictionaries without alteration — `samples` maps
`"generic_name"` to `pos_in_file` and the string forms of `ntuple_paths`,
the single channel entry carries `variable` and `bins`, the single
template entry carries `weight` and `selection_filter` — and these
dictionaries, with the `MyProcessor` constructor arguments and the
iterative executor, are exactly what the single `run_uproot_job` call
receives; the function's value is the extraction applied to that job's
result. -/
theorem build_single_histogram_translates_arguments
    (source : String → SampleSpec → List (List Event)) (ev : PyEval)
    (sqrt : ℚ → ℚ) (ntuple_paths : List PyPath)
    (pos_in_file «variable» : String) (bins : List ℚ)
    (weight selection_filter : Option String) :
    build_single_histogram_job ntuple_paths pos_in_file «variable» bins
        weight selection_filter =
      { samples := [("generic_name",
          ⟨pos_in_file, ntuple_paths.map PyPath.str⟩)]
        treename := none
        proc_channel_info := some
          [⟨"generic_channel_name", «variable», "generic_label", bins⟩]
        proc_template_info := some [("generic_name",
          [⟨"generic_template_name", weight, selection_filter⟩])]
        executor := .iterative
        schema := "BaseSchema" } ∧
    build_single_histogram source ev sqrt ntuple_paths pos_in_file
        «variable» bins weight selection_filter =
      (runJob source ev (build_single_histogram_job ntuple_paths pos_in_file
        «variable» bins weight selection_filter)).bind (extractGeneric sqrt) :=
  ⟨rfl, rfl⟩

/-! ## Claim C5 -/

/-- Claim C5: every `run_uproot_job` invocation of the program — the one
inside `build_single_histogram` (for any arguments) and the one of the
example cell — passes `processor.iterative_executor`, and under the
iterative executor a job's chunks are processed strictly sequentially:
each chunk's `process` call completes and is merged into the accumulator
before the next chunk starts. -/
theorem all_jobs_use_iterative_executor :
    (∀ (ntuple_paths : List PyPath) (pos_in_file «variable» : String)
      (bins : List ℚ) (weight selection_filter : Option String),
      (build_single_histogram_job ntuple_paths pos_in_file «variable» bins
        weight selection_filter).executor = Executor.iterative) ∧
    example_job.executor = Executor.iterative ∧
    (∀ (ev : PyEval) (p : MyProcessor) (c : Chunk) (cs : List Chunk)
      (acc : List (String × Hist)),
      runChunksIterative ev p (c :: cs) acc =
        (p.process ev c) >>= fun out =>
          runChunksIterative ev p cs (accAdd acc out)) ∧
    (∀ (source : String → SampleSpec → List (List Event)) (ev : PyEval)
      (samples : List (String × SampleSpec)) (tn : Option String)
      (ci : Option (List Channel)) (ti : Option TemplateInfo) (sch : String),
      runJob source ev ⟨samples, tn, ci, ti, .iterative, sch⟩ =
        (MyProcessor.init ci ti) >>= fun p =>
          (runChunksIterative ev p (chunksOf source samples)
            (accIdentity p.accumulator)) >>= fun acc =>
              .ok (p.postprocess acc)) :=
  ⟨fun _ _ _ _ _ _ => rfl, rfl, fun _ _ _ _ _ => rfl,
    fun _ _ _ _ _ _ _ => rfl⟩

/-! ## Claim C6 -/

/-- Claim C6: no operation of the program writes to any data store or
file — the effect trace of every `build_single_histogram` call and of the
example cell's job contains no write effect (only the job submission and
file reads), and the result reading loop performs only print effects. -/
theorem no_write_effects :
    (∀ (ntuple_paths : List PyPath) (pos_in_file «variable» : String)
      (bins : List ℚ) (weight selection_filter : Option String),
      (build_single_histogram_effects ntuple_paths pos_in_file «variable»
        bins weight selection_filter).all (fun e => !e.isWrite) = true) ∧
    example_cell_effects.all (fun e => !e.isWrite) = true ∧
    (∀ (channel_info : List Channel) (ti : TemplateInfo)
      (result : List (String × Hist)) (sqrt : ℚ → ℚ),
      (reading_loop_effects channel_info ti result sqrt).all
        Effect.isPrint = true) := by
  refine ⟨?_, rfl, ?_⟩
  · intro paths pos v bins w filt
    rw [List.all_eq_true]
    intro e he
    simp only [build_single_histogram_effects, jobEffects, List.mem_cons,
      List.mem_flatMap, List.mem_map] at he
    rcases he with he | ⟨kv, -, ⟨p, -, he⟩⟩ <;> subst he <;> rfl
  · intro channel_info ti result sqrt
    rw [List.all_eq_true]
    intro e he
    simp only [reading_loop_effects, List.mem_flatMap, List.mem_cons,
      List.not_mem_nil, or_false] at he
    obtain ⟨ch, -, he⟩ := he
    rcases he with he | ⟨kv, -, he | ⟨tem, -, he | he | he⟩⟩ <;>
        subst he <;> rfl

/-! ## Claim C3 -/

theorem except_bind_err {ε α β : Type} (e : ε) (f : α → Except ε β) :
    (Except.error e).bind f = Except.error e := rfl

theorem except_bind_ok {ε α β : Type} (a : α) (f : α → Except ε β) :
    (Except.ok a).bind f = f a := rfl

theorem extractGeneric_ne_valueError (sqrt : ℚ → ℚ)
    (result : List (String × Hist)) :
    extractGeneric sqrt result ≠ .error .valueError := by
  unfold extractGeneric
  rcases dictGet result "generic_channel_name" with - | h0
  · intro hc; cases hc
  · intro hc; cases hc

/-- Claim C3: the `MyProcessor` constructor raises `ValueError` if and
only if `channel_info` is `None` or `template_info` is `None`, and this
guard is the program's only deliberate raise: no run of `process`, of
`build_single_histogram` or of the example cell's job ever produces a
`ValueError` (their failure modes are only the implicit `TypeError` /
`KeyError` runtime errors). -/
theorem constructor_guard_is_only_deliberate_failure :
    (∀ (ci : Option (List Channel)) (ti : Option TemplateInfo),
      MyProcessor.init ci ti = .error .valueError ↔
        (ci = none ∨ ti = none)) ∧
    (∀ (p : MyProcessor) (ev : PyEval) (c : Chunk),
      p.process ev c ≠ .error .valueError) ∧
    (∀ (source : String → SampleSpec → List (List Event)) (ev : PyEval)
      (sqrt : ℚ → ℚ) (ntuple_paths : List PyPath)
      (pos_in_file «variable» : String) (bins : List ℚ)
      (weight selection_filter : Option String),
      build_single_histogram source ev sqrt ntuple_paths pos_in_file
        «variable» bins weight selection_filter ≠ .error .valueError) ∧
    (∀ (source : String → SampleSpec → List (List Event)) (ev : PyEval),
      example_result source ev ≠ .error .valueError) := by
  refine ⟨?_, process_ne_valueError, ?_, ?_⟩
  · rintro (- | ci) (- | ti) <;> simp [MyProcessor.init]
  · intro source ev sqrt paths pos v bins w filt
    show (runJob source ev
      (build_single_histogram_job paths pos v bins w filt)).bind
        (extractGeneric sqrt) ≠ .error .valueError
    rcases hr : runJob source ev
      (build_single_histogram_job paths pos v bins w filt) with e | res
    · rw [except_bind_err]
      intro hc
      injection hc with hc
      rw [hc] at hr
      exact runJob_ne_valueError source ev
        (build_single_histogram_job paths pos v bins w filt) _ _ rfl rfl hr
    · rw [except_bind_ok]
      exact extractGeneric_ne_valueError sqrt res
  · intro source ev
    exact runJob_ne_valueError source ev example_job example_channel_info
      example_template_info rfl rfl

/-! ## Claim C9 -/

/-- Claim C9: whenever the backend job of `build_single_histogram`
succeeds, the function returns the pair of the extracted yields and the
elementwise `np.sqrt` of the extracted variance — the per-bin sum of
squared weights from `values(sumw2=True)` — and not the variance itself. -/
theorem returns_sqrt_of_sumw2
    (source : String → SampleSpec → List (List Event)) (ev : PyEval)
    (sqrt : ℚ → ℚ) (ntuple_paths : List PyPath)
    (pos_in_file «variable» : String) (bins : List ℚ)
    (weight selection_filter : Option String)
    (res : List (String × Hist)) (h : Hist)
    (hrun : runJob source ev (build_single_histogram_job ntuple_paths
      pos_in_file «variable» bins weight selection_filter) = .ok res)
    (hget : dictGet res "generic_channel_name" = some h) :
    build_single_histogram source ev sqrt ntuple_paths pos_in_file
        «variable» bins weight selection_filter =
      .ok ((h.values ("generic_name", "generic_template_name")).1,
        ((h.values ("generic_name", "generic_template_name")).2).map sqrt) ∧
    (h.values ("generic_name", "generic_template_name")).2 =
      (List.range (h.binning.length - 1)).map (fun i =>
        ((h.entries.filter (fun e => e.dataset = "generic_name" ∧
            e.template = "generic_template_name" ∧
            binIndex h.binning e.observable = some i)).map
          (fun e => e.weight ^ 2)).sum) := by
  constructor
  · show (runJob source ev (build_single_histogram_job ntuple_paths
      pos_in_file «variable» bins weight selection_filter)).bind
        (extractGeneric sqrt) = _
    rw [hrun, except_bind_ok]
    unfold extractGeneric
    rw [hget]
  · simp only [Hist.values, Hist.perBin, List.filter_filter]
    refine congrArg (List.map · (List.range (h.binning.length - 1))) ?_
    funext i
    refine congrArg
      (fun (l : List FillEntry) =>
        (List.map (fun e => e.weight ^ 2) l).sum) ?_
    refine List.filter_congr ?_
    intro e _
    by_cases h1 : e.dataset = "generic_name" <;>
      by_cases h2 : e.template = "generic_template_name" <;>
      by_cases h3 : binIndex h.binning e.observable = some i <;>
      simp [h1, h2, h3]

/-! ## Claim C2 -/

theorem contribOf_some_weight (ev : PyEval) (dataset v n w filt : String)
    (events : List Event) :
    contribOf ev dataset v ⟨n, some w, some filt⟩ events =
      (events.filter (ev.bool filt)).map
        (fun e => ⟨dataset, n, ev.num w e, ev.num v e⟩) := by
  simp only [contribOf, templateContrib]
  rw [List.zip_map', List.map_map]
  rfl

theorem contribOf_none_weight (ev : PyEval) (dataset v n filt : String)
    (events : List Event) :
    contribOf ev dataset v ⟨n, none, some filt⟩ events =
      (events.filter (ev.bool filt)).map
        (fun e => ⟨dataset, n, 1, ev.num v e⟩) := by
  simp only [contribOf, templateContrib]
  rw [List.length_map, ← List.map_const, List.zip_map', List.map_map]
  rfl

/-- Claim C2: for a chunk with dataset `d`, a single `process` call fills
the output histogram of every channel with the contributions of every
template of `template_info[d]` — one fill per (channel, template) pair —
where a template's contribution applies its `selection_filter` to the
events and its `weight` (or unit weight) to the selected events. -/
theorem process_fills_every_channel_template_pair
    (chs : List Channel) (ti : TemplateInfo) (p : MyProcessor)
    (hp : MyProcessor.init (some chs) (some ti) = .ok p) (ev : PyEval)
    (dataset : String) (events : List Event) (ts : List Template)
    (hts : dictGet ti dataset = some ts)
    (hfilt : ∀ t ∈ ts, t.selection_filter.isSome)
    (hnd : (chs.map Channel.name).Nodup) :
    (∃ out, p.process ev ⟨dataset, events⟩ = .ok out ∧
      ∀ ch ∈ chs, dictGet out ch.name =
        some ⟨ch.«variable», ch.observable_label, ch.binning,
          ts.flatMap
            (fun t => contribOf ev dataset ch.«variable» t events)⟩) ∧
    (∀ (v n w filt : String),
      contribOf ev dataset v ⟨n, some w, some filt⟩ events =
        (events.filter (ev.bool filt)).map
          (fun e => ⟨dataset, n, ev.num w e, ev.num v e⟩)) ∧
    (∀ (v n filt : String),
      contribOf ev dataset v ⟨n, none, some filt⟩ events =
        (events.filter (ev.bool filt)).map
          (fun e => ⟨dataset, n, 1, ev.num v e⟩)) :=
  ⟨process_ok chs ti p hp ev dataset events ts hts hfilt hnd,
   fun v n w filt => contribOf_some_weight ev dataset v n w filt events,
   fun v n filt => contribOf_none_weight ev dataset v n filt events⟩

/-- Witness for claim C2 at a concrete processor, channel, template and
chunk. -/
theorem process_fills_every_channel_template_pair_witness :
    ∃ out,
      (MyProcessor.mk (buildAccumulator [⟨"SR", "x", "lbl", [0, 1]⟩])
          [⟨"SR", "x", "lbl", [0, 1]⟩]
          [("ds", [⟨"nominal", none, some "f"⟩])]).process
        ⟨fun _ _ => true, fun _ _ => 0⟩ ⟨"ds", []⟩ = .ok out :=
  ((process_fills_every_channel_template_pair
      [⟨"SR", "x", "lbl", [0, 1]⟩] [("ds", [⟨"nominal", none, some "f"⟩])]
      _ rfl ⟨fun _ _ => true, fun _ _ => 0⟩ "ds" []
      [⟨"nominal", none, some "f"⟩] rfl (by decide) (by decide)).1).imp
    (fun _ hc => hc.1)

/-! ## Claim C7 -/

theorem chunksOf_mem_dataset
    (source : String → SampleSpec → List (List Event)) (k : String)
    (s : SampleSpec) (c : Chunk) (hc : c ∈ chunksOf source [(k, s)]) :
    c.dataset = k := by
  simp only [chunksOf, List.flatMap_cons, List.flatMap_nil,
    List.append_nil, List.mem_map] at hc
  obtain ⟨evs, -, rfl⟩ := hc
  rfl

/-- Claim C7: `process` evaluates each template's `selection_filter`
unconditionally, so it fails with a `TypeError` as soon as a template's
filter is `None`, and succeeds (for nonempty channel lists) exactly when
every template's filter is a non-`None` expression; `weight`, by contrast,
may be `None`. Moreover `build_single_histogram`'s defaulted
`selection_filter=None` reaches the template dictionary unchanged, so a
call relying on the default fails with a `TypeError` as soon as the
fileset yields at least one chunk. -/
theorem selection_filter_required
    (chs : List Channel) (ti : TemplateInfo) (p : MyProcessor)
    (hp : MyProcessor.init (some chs) (some ti) = .ok p)
    (ev : PyEval) (dataset : String) (events : List Event)
    (ch0 : Channel) (rest : List Channel) (hchs : chs = ch0 :: rest)
    (ts : List Template) (hts : dictGet ti dataset = some ts)
    (hnd : (chs.map Channel.name).Nodup) :
    ((∃ t ∈ ts, t.selection_filter = none) →
      p.process ev ⟨dataset, events⟩ = .error .typeError) ∧
    ((∀ t ∈ ts, t.selection_filter.isSome) →
      ∃ out, p.process ev ⟨dataset, events⟩ = .ok out) ∧
    (∀ (ntuple_paths : List PyPath) (pos_in_file v : String)
      (bins : List ℚ) (w : Option String),
      (build_single_histogram_job ntuple_paths pos_in_file v bins
        w).proc_template_info =
      some [("generic_name", [⟨"generic_template_name", w, none⟩])]) ∧
    (∀ (source : String → SampleSpec → List (List Event)) (ev1 : PyEval)
      (sqrt : ℚ → ℚ) (paths : List PyPath) (pos v : String)
      (bins : List ℚ) (w : Option String) (c : Chunk) (cs : List Chunk),
      chunksOf source (build_single_histogram_job paths pos v bins
        w).samples = c :: cs →
      build_single_histogram source ev1 sqrt paths pos v bins w =
        .error .typeError) := by
  refine ⟨?_, ?_, fun _ _ _ _ _ => rfl, ?_⟩
  · intro hbad
    exact process_err chs ti p hp ev dataset events ch0 rest hchs ts hts
      hbad hnd
  · intro hfilt
    obtain ⟨out, hrun, -⟩ :=
      process_ok chs ti p hp ev dataset events ts hts hfilt hnd
    exact ⟨out, hrun⟩
  · intro source ev1 sqrt paths pos v bins w c cs hchunks
    have hcd : c.dataset = "generic_name" :=
      chunksOf_mem_dataset source _ _ c
        (hchunks ▸ List.mem_cons_self c cs)
    have hproc :
        (MyProcessor.mk
          (buildAccumulator [⟨"generic_channel_name", v, "generic_label",
            bins⟩])
          [⟨"generic_channel_name", v, "generic_label", bins⟩]
          [("generic_name",
            [⟨"generic_template_name", w, none⟩])]).process ev1 c =
        .error .typeError := by
      refine process_err _ _ _ rfl ev1 c.dataset c.events
        ⟨"generic_channel_name", v, "generic_label", bins⟩ [] rfl
        [⟨"generic_template_name", w, none⟩] ?_
        ⟨⟨"generic_template_name", w, none⟩, List.mem_singleton.mpr rfl,
          rfl⟩ (by simp)
      rw [hcd]
      simp [dictGet]
    have hrun :
        runChunksIterative ev1
          (MyProcessor.mk
            (buildAccumulator [⟨"generic_channel_name", v, "generic_label",
              bins⟩])
            [⟨"generic_channel_name", v, "generic_label", bins⟩]
            [("generic_name", [⟨"generic_template_name", w, none⟩])])
          (c :: cs)
          (accIdentity
            (buildAccumulator [⟨"generic_channel_name", v, "generic_label",
              bins⟩])) = .error .typeError := by
      simp only [runChunksIterative]
      rw [hproc, bind_err_eq]
    have hjob :
        runJob source ev1
          (build_single_histogram_job paths pos v bins w) =
        .error .typeError := by
      show (MyProcessor.init
          (some [⟨"generic_channel_name", v, "generic_label", bins⟩])
          (some [("generic_name",
            [⟨"generic_template_name", w, none⟩])]) >>= fun p1 =>
        (runChunksIterative ev1 p1
          (chunksOf source (build_single_histogram_job paths pos v bins
            w).samples) (accIdentity p1.accumulator) >>= fun acc =>
          .ok (p1.postprocess acc))) = .error .typeError
      rw [show MyProcessor.init
          (some [⟨"generic_channel_name", v, "generic_label", bins⟩])
          (some [("generic_name",
            [⟨"generic_template_name", w, none⟩])]) =
        .ok (MyProcessor.mk
          (buildAccumulator [⟨"generic_channel_name", v, "generic_label",
            bins⟩])
          [⟨"generic_channel_name", v, "generic_label", bins⟩]
          [("generic_name", [⟨"generic_template_name", w, none⟩])])
        from rfl, bind_ok_eq, hchunks, hrun, bind_err_eq]
    show (runJob source ev1
      (build_single_histogram_job paths pos v bins w)).bind
        (extractGeneric sqrt) = .error .typeError
    rw [hjob, except_bind_err]

/-- Witness for claim C7 at a concrete processor whose only template has a
`None` selection filter. -/
theorem selection_filter_required_witness :
    (MyProcessor.mk (buildAccumulator [⟨"SR", "x", "lbl", [0, 1]⟩])
        [⟨"SR", "x", "lbl", [0, 1]⟩] [("ds", [⟨"n", none, none⟩])]).process
      ⟨fun _ _ => true, fun _ _ => 0⟩ ⟨"ds", []⟩ = .error .typeError :=
  (selection_filter_required [⟨"SR", "x", "lbl", [0, 1]⟩]
      [("ds", [⟨"n", none, none⟩])] _ rfl
      ⟨fun _ _ => true, fun _ _ => 0⟩ "ds" []
      ⟨"SR", "x", "lbl", [0, 1]⟩ [] rfl
      [⟨"n", none, none⟩] rfl (by decide)).1
    ⟨⟨"n", none, none⟩, List.mem_singleton.mpr rfl, rfl⟩

/-! ## Claim C8 -/

theorem contribOf_mem (ev : PyEval) (dataset v : String) (t : Template)
    (events : List Event) (e : FillEntry)
    (he : e ∈ contribOf ev dataset v t events) :
    e.dataset = dataset ∧ e.template = t.name := by
  rcases t with ⟨n, w, f⟩
  cases f with
  | none => simp [contribOf, templateContrib] at he
  | some filt =>
      cases w with
      | none =>
          rw [contribOf_none_weight] at he
          obtain ⟨a, -, rfl⟩ := List.mem_map.mp he
          exact ⟨rfl, rfl⟩
      | some wexp =>
          rw [contribOf_some_weight] at he
          obtain ⟨a, -, rfl⟩ := List.mem_map.mp he
          exact ⟨rfl, rfl⟩

theorem flatMap_contrib_filter (ev : PyEval) (dataset v : String)
    (events : List Event) (t : Template) :
    ∀ ts : List Template,
    ts.filter (fun t' => t'.name = t.name) = [t] →
    (ts.flatMap (fun t' => contribOf ev dataset v t' events)).filter
      (fun e => e.dataset = dataset ∧ e.template = t.name) =
    contribOf ev dataset v t events := by
  intro ts
  induction ts with
  | nil => intro hf; exact absurd hf (by simp)
  | cons t0 rest ih =>
      intro hf
      rw [List.flatMap_cons, List.filter_append]
      by_cases hname : t0.name = t.name
      · rw [List.filter_cons_of_pos (by simpa using hname)] at hf
        have ht0 : t0 = t := (List.cons_eq_cons.mp hf).1
        have hrest : rest.filter (fun t' => t'.name = t.name) = [] :=
          (List.cons_eq_cons.mp hf).2
        subst ht0
        have h1 : (contribOf ev dataset v t0 events).filter
            (fun e => e.dataset = dataset ∧ e.template = t0.name) =
            contribOf ev dataset v t0 events := by
          rw [List.filter_eq_self]
          intro e he
          have := contribOf_mem ev dataset v t0 events e he
          simpa using this
        have h2 : (rest.flatMap
            (fun t' => contribOf ev dataset v t' events)).filter
            (fun e => e.dataset = dataset ∧ e.template = t0.name) = [] := by
          rw [List.filter_flatMap]
          rw [List.flatMap_eq_nil_iff]
          intro t' ht'
          rw [List.filter_eq_nil_iff]
          intro e he
          have hmem := contribOf_mem ev dataset v t' events e he
          have hne : ¬ t'.name = t0.name := by
            have := List.filter_eq_nil_iff.mp hrest t' ht'
            simpa using this
          simp only [decide_eq_true_eq, not_and]
          intro _
          rw [hmem.2]
          exact hne
        rw [h1, h2, List.append_nil]
      · have hrest : rest.filter (fun t' => t'.name = t.name) = [t] := by
          rwa [List.filter_cons_of_neg (by simpa using hname)] at hf
        have h1 : (contribOf ev dataset v t0 events).filter
            (fun e => e.dataset = dataset ∧ e.template = t.name) = [] := by
          rw [List.filter_eq_nil_iff]
          intro e he
          have hmem := contribOf_mem ev dataset v t0 events e he
          simp only [decide_eq_true_eq, not_and]
          intro _
          rw [hmem.2]
          exact hname
        rw [h1, List.nil_append]
        exact ih hrest

theorem sum_map_one {α : Type} (l : List α) :
    (l.map (fun _ => (1 : ℚ))).sum = (l.length : ℚ) := by
  induction l with
  | nil => simp
  | cons a rest ih => simp [ih, add_comm]

/-- Claim C8: a template whose `weight` is `None` fills unit weights for
every event passing its selection filter, so its per-bin yield equals the
number of selected events falling in that bin. -/
theorem unweighted_template_counts_events
    (chs : List Channel) (ti : TemplateInfo) (p : MyProcessor)
    (hp : MyProcessor.init (some chs) (some ti) = .ok p) (ev : PyEval)
    (dataset : String) (events : List Event) (ts : List Template)
    (hts : dictGet ti dataset = some ts)
    (hfilt : ∀ t ∈ ts, t.selection_filter.isSome)
    (hnd : (chs.map Channel.name).Nodup)
    (ch : Channel) (hch : ch ∈ chs)
    (t : Template) (filt : String) (hw : t.weight = none)
    (hf : t.selection_filter = some filt)
    (huniq : ts.filter (fun t' => t'.name = t.name) = [t]) :
    ∃ out h, p.process ev ⟨dataset, events⟩ = .ok out ∧
      dictGet out ch.name = some h ∧
      (h.values (dataset, t.name)).1 =
        (List.range (ch.binning.length - 1)).map (fun i =>
          (((events.filter (ev.bool filt)).filter (fun e =>
            binIndex ch.binning (ev.num ch.«variable» e) = some i)).length :
              ℚ)) := by
  obtain ⟨out, hrun, hget⟩ :=
    process_ok chs ti p hp ev dataset events ts hts hfilt hnd
  refine ⟨out, _, hrun, hget ch hch, ?_⟩
  have ht : t = ⟨t.name, none, some filt⟩ := by
    rcases t with ⟨n, w, f⟩
    cases hw
    cases hf
    rfl
  have hco : contribOf ev dataset ch.«variable» t events =
      (events.filter (ev.bool filt)).map
        (fun e => ⟨dataset, t.name, 1, ev.num ch.«variable» e⟩) := by
    conv_lhs => rw [ht]
    exact contribOf_none_weight ev dataset ch.«variable» t.name filt events
  simp only [Hist.values, Hist.perBin]
  rw [flatMap_contrib_filter ev dataset ch.«variable» events t ts huniq, hco]
  refine congrArg (List.map · (List.range (ch.binning.length - 1))) ?_
  funext i
  rw [List.filter_map, List.map_map]
  exact sum_map_one _

/-- Witness for claim C3: the constructor guard fires at a concrete `None`
argument. -/
theorem constructor_guard_is_only_deliberate_failure_witness :
    MyProcessor.init (none : Option (List Channel))
      (some [("ds", [⟨"n", none, none⟩])]) = .error .valueError :=
  (constructor_guard_is_only_deliberate_failure.1 none
    (some [("ds", [⟨"n", none, none⟩])])).mpr (Or.inl rfl)

/-- Witness for claim C9 at a concrete (empty) fileset. -/
theorem returns_sqrt_of_sumw2_witness :
    build_single_histogram (fun _ _ => []) ⟨fun _ _ => true, fun _ _ => 0⟩
        (fun q => q + 1) [] "t" "x" [] none (some "f") =
      .ok (((⟨"x", "generic_label", [], []⟩ : Hist).values
          ("generic_name", "generic_template_name")).1,
        (((⟨"x", "generic_label", [], []⟩ : Hist).values
          ("generic_name", "generic_template_name")).2).map
          (fun q => q + 1)) :=
  (returns_sqrt_of_sumw2 (fun _ _ => []) ⟨fun _ _ => true, fun _ _ => 0⟩
    (fun q => q + 1) [] "t" "x" [] none (some "f")
    [("generic_channel_name", ⟨"x", "generic_label", [], []⟩)]
    ⟨"x", "generic_label", [], []⟩ rfl rfl).1

/-- Witness for claim C8 at a concrete chunk: three events, two pass the
filter, one of those lands in the single bin, so the unweighted yield is
the count `1`. -/
theorem unweighted_template_counts_events_witness :
    ∃ out h,
      (MyProcessor.mk (buildAccumulator [⟨"SR", "x", "lbl", [0, 2]⟩])
          [⟨"SR", "x", "lbl", [0, 2]⟩]
          [("ds", [⟨"nominal", none, some "f"⟩])]).process
        ⟨fun _ e => decide (0 < e "c"), fun s e => e s⟩
        ⟨"ds", [fun _ => 1, fun _ => 5, fun _ => (-3 : ℚ)]⟩ = .ok out ∧
      dictGet out "SR" = some h ∧
      (h.values ("ds", "nominal")).1 = [1] := by
  obtain ⟨out, h, h1, h2, h3⟩ :=
    unweighted_template_counts_events
      [⟨"SR", "x", "lbl", [0, 2]⟩] [("ds", [⟨"nominal", none, some "f"⟩])]
      _ rfl ⟨fun _ e => decide (0 < e "c"), fun s e => e s⟩ "ds"
      [fun _ => 1, fun _ => 5, fun _ => (-3 : ℚ)]
      [⟨"nominal", none, some "f"⟩] rfl (by decide) (by decide)
      ⟨"SR", "x", "lbl", [0, 2]⟩ (by decide)
      ⟨"nominal", none, some "f"⟩ "f" rfl rfl (by decide)
  refine ⟨out, h, h1, h2, ?_⟩
  rw [h3]
  decide

end CoffeaToCabinetry
